import Mathlib

/-!
# Dimension analysis by template metaprogramming

A shallow embedding of `include/dimension_analysis.h`.

The header works at two levels.

* At compile time, a dimension tag is a *type* (`DimensionVector<int, 0, 1, 0, ...>`),
  and `DimensionTransform` computes a new type from two tags.  Types passed as template
  arguments are embedded as values of `TypeArg`; a metafunction that names a member
  `Type` or `value` becomes a function into `Option`, with `none` standing for
  "the member does not exist or its initialiser is not a constant expression", that is,
  for a program the compiler rejects.
* At run time, a `Quantity<T, Dimension>` holds one scalar `value_`.  It is embedded as
  a structure indexed by its tag.  The representation type `T` is a parameter, and its
  own `+ - * /` are taken from the corresponding instances.

An operator applied to two operands is embedded as a function of the two operands whose
tags are arbitrary; it returns `none` when template argument deduction or the
substitution into the return type fails, and otherwise the dimension tag of the result
type together with the returned quantity.

Integer widths follow the common data model with 8-bit `char`, 16-bit `short`,
32-bit `int` and 64-bit `long` and `long long`.
-/

namespace jz

/-! ## Exponent types -/

/-- The standard signed and unsigned integer types that can be supplied for the template
parameter `ValueType` (the type of the exponents in `template <typename T, T... Args>`).
Every vector the header itself defines uses `int`. -/
inductive ValueType where
  | signed_char
  | short
  | int
  | long
  | long_long
  | unsigned_char
  | unsigned_short
  | unsigned_int
  | unsigned_long
  | unsigned_long_long
  deriving DecidableEq, Repr

/-- Width in bits of an exponent type. -/
def ValueType.bits : ValueType → Nat
  | .signed_char => 8
  | .short => 16
  | .int => 32
  | .long => 64
  | .long_long => 64
  | .unsigned_char => 8
  | .unsigned_short => 16
  | .unsigned_int => 32
  | .unsigned_long => 64
  | .unsigned_long_long => 64

/-- Signedness of an exponent type. -/
def ValueType.isSigned : ValueType → Bool
  | .signed_char => true
  | .short => true
  | .int => true
  | .long => true
  | .long_long => true
  | _ => false

/-- Smallest value of the type. -/
def ValueType.minValue (V : ValueType) : Int :=
  if V.isSigned then -(2 ^ (V.bits - 1)) else 0

/-- Largest value of the type. -/
def ValueType.maxValue (V : ValueType) : Int :=
  if V.isSigned then 2 ^ (V.bits - 1) - 1 else 2 ^ V.bits - 1

/-- The integer `m` is a value of the type. -/
def ValueType.representable (V : ValueType) (m : Int) : Prop :=
  V.minValue ≤ m ∧ m ≤ V.maxValue

instance (V : ValueType) (m : Int) : Decidable (V.representable m) := by
  unfold ValueType.representable
  exact inferInstance

/-- The value of the type congruent to `m` modulo `2 ^ bits`. -/
def ValueType.wrap (V : ValueType) (m : Int) : Int :=
  (m - V.minValue) % 2 ^ V.bits + V.minValue

/-- The value of a constant initialiser `const static ValueType value = e;` where the
arithmetic expression `e` has the mathematical result `m`.

* When `m` is a value of `ValueType` the member has that value.
* `int`, `long` and `long long` operands are not promoted, so the expression is evaluated
  in `ValueType` itself; a result outside its range is signed overflow, the expression is
  not a constant expression and the program is rejected (`none`).
* Unsigned arithmetic is modular, and operands of a type narrower than `int` are promoted
  to `int`, where the single addition or subtraction cannot overflow, and the result is
  converted back to `ValueType`: in both cases the member is `m` reduced modulo
  `2 ^ bits`. -/
def ValueType.constant (V : ValueType) (m : Int) : Option Int :=
  if V.representable m then some m
  else if V.isSigned && decide (32 ≤ V.bits) then none
  else some (V.wrap m)

/-! ## Metafunctions on exponents -/

/-- The member `DimensionPlusImpl<ValueType, lhs, rhs>::value`,
declared `const static ValueType value = lhs + rhs;`. -/
def DimensionPlusImpl (V : ValueType) (lhs rhs : Int) : Option Int :=
  V.constant (lhs + rhs)

/-- The member `DimensionMinusImpl<ValueType, lhs, rhs>::value`,
declared `const static ValueType value = lhs - rhs;`. -/
def DimensionMinusImpl (V : ValueType) (lhs rhs : Int) : Option Int :=
  V.constant (lhs - rhs)

/-- The two metafunction classes handed to `DimensionTransform` as `MetaFunc`
("MetaFunc receive DimensionPlus or DimensionMinus"). -/
inductive MetaFunc where
  | DimensionPlus
  | DimensionMinus
  deriving DecidableEq, Repr

/-- The member `MetaFunc::Apply<ValueType, lhs, rhs>::value`: `DimensionPlus::Apply`
derives from `DimensionPlusImpl`, `DimensionMinus::Apply` from `DimensionMinusImpl`. -/
def MetaFunc.Apply : MetaFunc → ValueType → Int → Int → Option Int
  | .DimensionPlus, V, lhs, rhs => DimensionPlusImpl V lhs rhs
  | .DimensionMinus, V, lhs, rhs => DimensionMinusImpl V lhs rhs

/-! ## Dimension tags -/

/-- A type passed for a `typename` template parameter such as `Dimension`, `T1` or `T2`.

* `inst tmpl V Args` is a specialisation `tmpl<V, Args...>` of a class template whose
  arguments are a type `V` followed by zero or more values of type `V`
  (`DimensionVector<int, 0, 1>`, or a template with the one parameter `V` and the empty
  pack); this is the shape that the specialised `DimensionTransform` matches.
* `other name` is any type that is not of that shape (for example `int`). -/
inductive TypeArg where
  | inst (tmpl : String) (V : ValueType) (Args : List Int)
  | other (name : String)
  deriving DecidableEq, Repr

/-- The type `DimensionVector<V, Args...>`. The template is variadic: `Args` may have
any number of elements. -/
def DimensionVector (V : ValueType) (Args : List Int) : TypeArg :=
  .inst "DimensionVector" V Args

/-- `using mass = DimensionVector<int, 1, 0, 0, 0, 0, 0, 0>;` -/
def mass : TypeArg := DimensionVector .int [1, 0, 0, 0, 0, 0, 0]
/-- `using length = DimensionVector<int, 0, 1, 0, 0, 0, 0, 0>;` -/
def length : TypeArg := DimensionVector .int [0, 1, 0, 0, 0, 0, 0]
/-- `using time = DimensionVector<int, 0, 0, 1, 0, 0, 0, 0>;` -/
def time : TypeArg := DimensionVector .int [0, 0, 1, 0, 0, 0, 0]
/-- `using electric_current = DimensionVector<int, 0, 0, 0, 1, 0, 0, 0>;` -/
def electric_current : TypeArg := DimensionVector .int [0, 0, 0, 1, 0, 0, 0]
/-- `using thermodynamic_temperature = DimensionVector<int, 0, 0, 0, 0, 1, 0, 0>;` -/
def thermodynamic_temperature : TypeArg := DimensionVector .int [0, 0, 0, 0, 1, 0, 0]
/-- `using luminous_intensity = DimensionVector<int, 0, 0, 0, 0, 0, 1, 0>;` -/
def luminous_intensity : TypeArg := DimensionVector .int [0, 0, 0, 0, 0, 1, 0]
/-- `using amount_of_substance = DimensionVector<int, 0, 0, 0, 0, 0, 0, 1>;` -/
def amount_of_substance : TypeArg := DimensionVector .int [0, 0, 0, 0, 0, 0, 1]

/-- The exponents of a tag of the shape `tmpl<V, Args...>`, and `none` for other types. -/
def TypeArg.exponents : TypeArg → Option (List Int)
  | .inst _ _ Args => some Args
  | .other _ => none

/-- The simultaneous pack expansion `MetaFunc::template Apply<ValueType, Args1, Args2>::value...`.
Both packs are expanded in lockstep, so they must have the same number of elements, and
every element of the expansion must be a constant. -/
def packExpansion (f : MetaFunc) (V : ValueType) : List Int → List Int → Option (List Int)
  | [], [] => some []
  | lhs :: Args1, rhs :: Args2 =>
    match f.Apply V lhs rhs, packExpansion f V Args1 Args2 with
    | some v, some vs => some (v :: vs)
    | _, _ => none
  | _, _ => none

/-- The member `DimensionTransform<T1, T2, MetaFunc>::Type`.

The primary template `struct DimensionTransform {}` has no member `Type`.  The
specialisation for `T1<ValueType, Args1...>`, `T2<ValueType, Args2...>` (one and the same
`ValueType` in both) defines it as
`DimensionVector<ValueType, MetaFunc::template Apply<ValueType, Args1, Args2>::value...>`. -/
def DimensionTransform : TypeArg → TypeArg → MetaFunc → Option TypeArg
  | .inst _ V1 Args1, .inst _ V2 Args2, f =>
    if V1 = V2 then (packExpansion f V1 Args1 Args2).map (DimensionVector V1) else none
  | _, _, _ => none

/-! ## Quantities -/

/-- The class `Quantity<T, Dimension>`: one private member `T value_`. The constructor
`explicit Quantity(T value) : value_(value) {}` is `Quantity.mk`. -/
structure Quantity (T : Type) (Dimension : TypeArg) where
  value_ : T

/-- `T Value() const { return value_; }` -/
def Quantity.Value {T : Type} {Dimension : TypeArg} (q : Quantity T Dimension) : T :=
  q.value_

/-- A well-typed operator expression: the dimension tag of its type and its value. -/
abbrev Typed (T : Type) : Type := (Dimension : TypeArg) × Quantity T Dimension

/-- `operator+`, declared for `const Quantity<T, Dimension>&` on both sides. `T` and
`Dimension` are deduced from each operand and the two deductions must agree; there is no
conversion between quantities (the only constructor is explicit and takes a `T`). With
operands of the same representation type the call is well-formed exactly when the two tags
are the same type, and then returns `Quantity<T, Dimension>(lhs.Value() + rhs.Value())`. -/
def operatorPlus {T : Type} [Add T] {D1 D2 : TypeArg}
    (lhs : Quantity T D1) (rhs : Quantity T D2) : Option (Typed T) :=
  if D1 = D2 then some ⟨D1, ⟨lhs.Value + rhs.Value⟩⟩ else none

/-- `operator-`, with the same signature as `operator+`; it returns
`Quantity<T, Dimension>(lhs.Value() - rhs.Value())`. -/
def operatorMinus {T : Type} [Sub T] {D1 D2 : TypeArg}
    (lhs : Quantity T D1) (rhs : Quantity T D2) : Option (Typed T) :=
  if D1 = D2 then some ⟨D1, ⟨lhs.Value - rhs.Value⟩⟩ else none

/-- `operator*` for `Quantity<T, Dimension1>` and `Quantity<T, Dimension2>`. Its return
type names `DimensionTransform<Dimension1, Dimension2, DimensionPlus>::Type`; when that
member exists the body returns `Quantity<T, Dimension>(lhs.Value() * rhs.Value())`. -/
def operatorMul {T : Type} [Mul T] {D1 D2 : TypeArg}
    (lhs : Quantity T D1) (rhs : Quantity T D2) : Option (Typed T) :=
  match DimensionTransform D1 D2 .DimensionPlus with
  | some Dimension => some ⟨Dimension, ⟨lhs.Value * rhs.Value⟩⟩
  | none => none

/-- `operator/` for `Quantity<T, Dimension1>` and `Quantity<T, Dimension2>`. Its return
type names `DimensionTransform<Dimension1, Dimension2, DimensionMinus>::Type`; when that
member exists the body returns `Quantity<T, Dimension>(lhs.Value() / rhs.Value())`. -/
def operatorDiv {T : Type} [Div T] {D1 D2 : TypeArg}
    (lhs : Quantity T D1) (rhs : Quantity T D2) : Option (Typed T) :=
  match DimensionTransform D1 D2 .DimensionMinus with
  | some Dimension => some ⟨Dimension, ⟨lhs.Value / rhs.Value⟩⟩
  | none => none

/-- A call `q.Value()` seen as a step on the object `q`: `Value` is a `const` member
function and `value_` is not `mutable`, so the call yields `value_` and the object after
the call is the object before it. -/
def Quantity.callValue {T : Type} {Dimension : TypeArg} (q : Quantity T Dimension) :
    T × Quantity T Dimension :=
  (q.Value, q)

/-- The specialisation `tmpl<V, Args...>` is a type only when every argument is a value of
`V`: a template argument is a converted constant expression, which may not narrow. -/
def TypeArg.WellFormed : TypeArg → Prop
  | .inst _ V Args => ∀ m ∈ Args, V.representable m
  | .other _ => True

instance (D : TypeArg) : Decidable D.WellFormed := by
  cases D <;> unfold TypeArg.WellFormed <;> exact inferInstance

/-! ## New-handler support

A shallow embedding of `include/new_handler.h`; `include/new_delete.h` repeats the same
two classes word for word.  The handlers live in two slots of mutable state, and every
function that reads or writes them is embedded as a function from the state before the
call to its return value and the state after it. -/

/-- The type `std::new_handler`: a pointer to a handler function, with `none` for `nullptr`.
Handler functions are told apart by a number. -/
abbrev new_handler : Type := Option Nat

/-- The two handler slots: the global new-handler of the C++ runtime, read and written
through `std::set_new_handler`, and the static member
`NewHandlerSupport<T>::current_handler_` of one instantiation `T`. -/
structure Handlers where
  global_handler : new_handler
  current_handler_ : new_handler
  deriving DecidableEq, Repr

/-- The standard library function `std::set_new_handler(handler)`: it installs `handler` as
the global new-handler and returns the one that was installed before. -/
def set_new_handler (handler : new_handler) (s : Handlers) : new_handler × Handlers :=
  (s.global_handler, { s with global_handler := handler })

/-- The class `NewHandlerHolder`: one private member `handler_`, set by
`explicit NewHandlerHolder(std::new_handler handler) : handler_(handler) {}`. -/
structure NewHandlerHolder where
  handler_ : new_handler
  deriving DecidableEq, Repr

/-- `~NewHandlerHolder() { std::set_new_handler(handler_); }` -/
def NewHandlerHolder.destructor (holder : NewHandlerHolder) (s : Handlers) : Handlers :=
  (set_new_handler holder.handler_ s).2

/-- The state in which no class handler has been set yet:
`std::new_handler NewHandlerSupport<T>::current_handler_ = nullptr;`. -/
def NewHandlerSupport.start (global_handler : new_handler) : Handlers :=
  { global_handler := global_handler, current_handler_ := none }

/-- `NewHandlerSupport<T>::SetNewHandler`:
`auto old_handler = current_handler_; current_handler_ = handler; return old_handler;`. -/
def NewHandlerSupport.SetNewHandler (handler : new_handler) (s : Handlers) :
    new_handler × Handlers :=
  let old_handler := s.current_handler_
  (old_handler, { s with current_handler_ := handler })

/-- How a call of the global `::operator new(size)` ends: it returns a pointer to the
memory, or it throws `std::bad_alloc`. -/
inductive Allocation where
  | returned (p : Nat)
  | bad_alloc
  deriving DecidableEq, Repr

/-- `NewHandlerSupport<T>::operator new`:
`NewHandlerHolder holder(std::set_new_handler(current_handler_)); return ::operator new(size);`.

The global `::operator new` is not part of the header and is the parameter `globalNew`.
It is given the size and the two handler slots as they are when it starts, and it ends as an
`Allocation` and with the two slots as it leaves them.  When memory runs out it calls the
installed global handler, which is a function of the program: that function may install a
different global handler through `std::set_new_handler`, and it may call the public static
`SetNewHandler` of this class and so assign `current_handler_`.

`holder` is a local object, so its destructor runs when the function is left, both on the
`return` and when `std::bad_alloc` propagates. -/
def NewHandlerSupport.operatorNew (globalNew : Nat → Handlers → Allocation × Handlers)
    (size : Nat) (s : Handlers) : Allocation × Handlers :=
  let installed := set_new_handler s.current_handler_ s
  let holder : NewHandlerHolder := { handler_ := installed.1 }
  let allocated := globalNew size installed.2
  (allocated.1, holder.destructor allocated.2)

/-! ## Auxiliary facts about the derivation -/

theorem constant_of_representable (V : ValueType) (m : Int) (h : V.representable m) :
    V.constant m = some m := by
  simp [ValueType.constant, h]

theorem constant_isSome_iff (V : ValueType) (m : Int) :
    (V.constant m).isSome = true ↔
      (V.representable m ∨ ¬ (V.isSigned = true ∧ 32 ≤ V.bits)) := by
  unfold ValueType.constant
  by_cases h : V.representable m
  · simp [h]
  · by_cases h2 : V.isSigned = true ∧ 32 ≤ V.bits
    · simp [h, h2]
    · have h3 : (V.isSigned && decide (32 ≤ V.bits)) = false := by
        cases hs : V.isSigned
        · rfl
        · have hb : ¬ 32 ≤ V.bits := fun hb => h2 ⟨hs, hb⟩
          simp [hb]
      simp [h, h2, h3]

theorem packExpansion_plus_of_representable (V : ValueType) :
    ∀ Args1 Args2 : List Int, Args1.length = Args2.length →
      (∀ m ∈ List.zipWith (· + ·) Args1 Args2, V.representable m) →
      packExpansion .DimensionPlus V Args1 Args2 = some (List.zipWith (· + ·) Args1 Args2)
  | [], [], _, _ => rfl
  | [], _ :: _, hlen, _ => by simp at hlen
  | _ :: _, [], hlen, _ => by simp at hlen
  | a :: Args1, b :: Args2, hlen, hrep => by
    have htail := packExpansion_plus_of_representable V Args1 Args2
      (by simpa using hlen) (fun m hm => hrep m (by simp [hm]))
    have hhead : V.constant (a + b) = some (a + b) :=
      constant_of_representable V _ (hrep (a + b) (by simp))
    simp [packExpansion, MetaFunc.Apply, DimensionPlusImpl, hhead, htail]

theorem packExpansion_minus_of_representable (V : ValueType) :
    ∀ Args1 Args2 : List Int, Args1.length = Args2.length →
      (∀ m ∈ List.zipWith (· - ·) Args1 Args2, V.representable m) →
      packExpansion .DimensionMinus V Args1 Args2 = some (List.zipWith (· - ·) Args1 Args2)
  | [], [], _, _ => rfl
  | [], _ :: _, hlen, _ => by simp at hlen
  | _ :: _, [], hlen, _ => by simp at hlen
  | a :: Args1, b :: Args2, hlen, hrep => by
    have htail := packExpansion_minus_of_representable V Args1 Args2
      (by simpa using hlen) (fun m hm => hrep m (by simp [hm]))
    have hhead : V.constant (a - b) = some (a - b) :=
      constant_of_representable V _ (hrep (a - b) (by simp))
    simp [packExpansion, MetaFunc.Apply, DimensionMinusImpl, hhead, htail]

theorem packExpansion_length (f : MetaFunc) (V : ValueType) :
    ∀ Args1 Args2 R : List Int, packExpansion f V Args1 Args2 = some R →
      R.length = Args1.length ∧ R.length = Args2.length
  | [], [], R, h => by
    simp [packExpansion] at h
    subst h
    simp
  | [], _ :: _, R, h => by simp [packExpansion] at h
  | _ :: _, [], R, h => by simp [packExpansion] at h
  | a :: Args1, b :: Args2, R, h => by
    unfold packExpansion at h
    cases hv : f.Apply V a b with
    | none => simp [hv] at h
    | some v =>
      cases hvs : packExpansion f V Args1 Args2 with
      | none => simp [hv, hvs] at h
      | some vs =>
        simp [hv, hvs] at h
        subst h
        have ih := packExpansion_length f V Args1 Args2 vs hvs
        simp [ih.1, ih.2.symm ▸ ih.1]

/-! ## Addition and subtraction -/

/-- Claim C1. `operator+` and `operator-` applied to a `Quantity<T, D1>` and a
`Quantity<T, D2>` are rejected (no result) whenever the tags `D1` and `D2` differ, and are
accepted whenever they are the same tag. -/
theorem operatorPlus_operatorMinus_same_dimension_only {T : Type} [Add T] [Sub T]
    (D1 D2 : TypeArg) (lhs : Quantity T D1) (rhs : Quantity T D2) :
    (D1 ≠ D2 → operatorPlus lhs rhs = none ∧ operatorMinus lhs rhs = none) ∧
    (D1 = D2 → (operatorPlus lhs rhs).isSome = true ∧ (operatorMinus lhs rhs).isSome = true) := by
  constructor
  · intro h
    simp [operatorPlus, operatorMinus, h]
  · intro h
    simp [operatorPlus, operatorMinus, h]

/-- The header's own example for C1: `len1 + mass1` (and `len1 - mass1`) does not
compile, while `len1 + len2` and `len1 - len2` do. -/
theorem operatorPlus_operatorMinus_length_mass :
    operatorPlus (⟨10⟩ : Quantity Int length) (⟨2⟩ : Quantity Int mass) = none ∧
    operatorMinus (⟨10⟩ : Quantity Int length) (⟨2⟩ : Quantity Int mass) = none ∧
    (operatorPlus (⟨10⟩ : Quantity Int length) (⟨5⟩ : Quantity Int length)).isSome = true ∧
    (operatorMinus (⟨10⟩ : Quantity Int length) (⟨5⟩ : Quantity Int length)).isSome = true :=
  ⟨((operatorPlus_operatorMinus_same_dimension_only length mass ⟨10⟩ ⟨2⟩).1 (by decide)).1,
   ((operatorPlus_operatorMinus_same_dimension_only length mass ⟨10⟩ ⟨2⟩).1 (by decide)).2,
   ((operatorPlus_operatorMinus_same_dimension_only length length ⟨10⟩ ⟨5⟩).2 rfl).1,
   ((operatorPlus_operatorMinus_same_dimension_only length length ⟨10⟩ ⟨5⟩).2 rfl).2⟩

/-- Claim C4. For every tag `D` and values `x`, `y`, adding `Quantity<T, D>(x)` and
`Quantity<T, D>(y)` is accepted and gives a quantity with tag `D` and value `x + y`. -/
theorem operatorPlus_same_dimension {T : Type} [Add T] (D : TypeArg) (x y : T) :
    operatorPlus (⟨x⟩ : Quantity T D) (⟨y⟩ : Quantity T D) = some ⟨D, ⟨x + y⟩⟩ ∧
    ∀ r, operatorPlus (⟨x⟩ : Quantity T D) (⟨y⟩ : Quantity T D) = some r →
      r.1 = D ∧ r.2.Value = x + y := by
  have h : operatorPlus (⟨x⟩ : Quantity T D) (⟨y⟩ : Quantity T D) = some ⟨D, ⟨x + y⟩⟩ := by
    simp [operatorPlus, Quantity.Value]
  refine ⟨h, ?_⟩
  intro r hr
  rw [h] at hr
  cases hr
  exact ⟨rfl, rfl⟩

/-- Claim C5. For every tag `D` and values `x`, `y`, subtracting `Quantity<T, D>(y)` from
`Quantity<T, D>(x)` is accepted and gives a quantity with tag `D` and value `x - y`
(left operand minus right operand). -/
theorem operatorMinus_same_dimension {T : Type} [Sub T] (D : TypeArg) (x y : T) :
    operatorMinus (⟨x⟩ : Quantity T D) (⟨y⟩ : Quantity T D) = some ⟨D, ⟨x - y⟩⟩ ∧
    ∀ r, operatorMinus (⟨x⟩ : Quantity T D) (⟨y⟩ : Quantity T D) = some r →
      r.1 = D ∧ r.2.Value = x - y := by
  have h : operatorMinus (⟨x⟩ : Quantity T D) (⟨y⟩ : Quantity T D) = some ⟨D, ⟨x - y⟩⟩ := by
    simp [operatorMinus, Quantity.Value]
  refine ⟨h, ?_⟩
  intro r hr
  rw [h] at hr
  cases hr
  exact ⟨rfl, rfl⟩

/-! ## Multiplication and division -/

theorem DimensionTransform_plus_of_representable (V : ValueType) (Args1 Args2 : List Int)
    (hlen : Args1.length = Args2.length)
    (hrep : ∀ m ∈ List.zipWith (· + ·) Args1 Args2, V.representable m) :
    DimensionTransform (DimensionVector V Args1) (DimensionVector V Args2) .DimensionPlus
      = some (DimensionVector V (List.zipWith (· + ·) Args1 Args2)) := by
  simp [DimensionTransform, DimensionVector,
    packExpansion_plus_of_representable V Args1 Args2 hlen hrep]

theorem DimensionTransform_minus_of_representable (V : ValueType) (Args1 Args2 : List Int)
    (hlen : Args1.length = Args2.length)
    (hrep : ∀ m ∈ List.zipWith (· - ·) Args1 Args2, V.representable m) :
    DimensionTransform (DimensionVector V Args1) (DimensionVector V Args2) .DimensionMinus
      = some (DimensionVector V (List.zipWith (· - ·) Args1 Args2)) := by
  simp [DimensionTransform, DimensionVector,
    packExpansion_minus_of_representable V Args1 Args2 hlen hrep]

/-- Claim C2, as amended. For two dimension vectors over the same exponent type with the
same number of exponents (seven in the header's data model) whose elementwise sums are all
representable in the exponent type, and for all values `x`, `y`, the product of
`Quantity(x)` and `Quantity(y)` is accepted, its dimension is the elementwise sum of the
two vectors and its value is `x * y`. -/
theorem operatorMul_dimension_value {T : Type} [Mul T] (V : ValueType)
    (Args1 Args2 : List Int) (x y : T)
    (hlen : Args1.length = Args2.length)
    (hrep : ∀ m ∈ List.zipWith (· + ·) Args1 Args2, V.representable m) :
    operatorMul (⟨x⟩ : Quantity T (DimensionVector V Args1))
        (⟨y⟩ : Quantity T (DimensionVector V Args2))
      = some ⟨DimensionVector V (List.zipWith (· + ·) Args1 Args2), ⟨x * y⟩⟩ := by
  simp [operatorMul, Quantity.Value,
    DimensionTransform_plus_of_representable V Args1 Args2 hlen hrep]

/-- Witness for C2: a force-like vector times a length, all seven exponents in range. -/
theorem operatorMul_dimension_value_witness :
    operatorMul (⟨6⟩ : Quantity Int (DimensionVector .int [1, 1, -2, 0, 0, 0, 0]))
        (⟨7⟩ : Quantity Int (DimensionVector .int [0, 1, 0, 0, 0, 0, 0]))
      = some ⟨DimensionVector .int [1, 2, -2, 0, 0, 0, 0], ⟨42⟩⟩ :=
  operatorMul_dimension_value .int [1, 1, -2, 0, 0, 0, 0] [0, 1, 0, 0, 0, 0, 0] 6 7
    rfl (by decide)

/-- Counterexample to C2 as stated: with first exponents `2147483647` and `1` the sum is
not an `int`, `DimensionPlusImpl<int, 2147483647, 1>::value` is not a constant, and the
product has no type at all, so its dimension is not the elementwise sum. -/
theorem operatorMul_exponent_overflow :
    DimensionPlusImpl .int 2147483647 1 = none ∧
    operatorMul (⟨6⟩ : Quantity Int (DimensionVector .int [2147483647, 0, 0, 0, 0, 0, 0]))
        (⟨7⟩ : Quantity Int mass) = none := by
  constructor
  · decide
  · rfl

/-- Claim C3, as amended. For two dimension vectors over the same exponent type with the
same number of exponents whose elementwise differences (left minus right) are all
representable in the exponent type, and for all values `x`, `y` with `y ≠ 0`, the quotient
of `Quantity(x)` by `Quantity(y)` is accepted, its dimension is the elementwise difference
of the two vectors and its value is `x / y`. -/
theorem operatorDiv_dimension_value {T : Type} [Div T] [Zero T] (V : ValueType)
    (Args1 Args2 : List Int) (x y : T) (_hy : y ≠ 0)
    (hlen : Args1.length = Args2.length)
    (hrep : ∀ m ∈ List.zipWith (· - ·) Args1 Args2, V.representable m) :
    operatorDiv (⟨x⟩ : Quantity T (DimensionVector V Args1))
        (⟨y⟩ : Quantity T (DimensionVector V Args2))
      = some ⟨DimensionVector V (List.zipWith (· - ·) Args1 Args2), ⟨x / y⟩⟩ := by
  simp [operatorDiv, Quantity.Value,
    DimensionTransform_minus_of_representable V Args1 Args2 hlen hrep]

/-- Witness for C3: an energy-like vector divided by a time. -/
theorem operatorDiv_dimension_value_witness :
    operatorDiv (⟨42⟩ : Quantity Int (DimensionVector .int [1, 2, -2, 0, 0, 0, 0]))
        (⟨7⟩ : Quantity Int (DimensionVector .int [0, 0, 1, 0, 0, 0, 0]))
      = some ⟨DimensionVector .int [1, 2, -3, 0, 0, 0, 0], ⟨42 / 7⟩⟩ :=
  operatorDiv_dimension_value .int [1, 2, -2, 0, 0, 0, 0] [0, 0, 1, 0, 0, 0, 0] 42 7
    (by decide) rfl (by decide)

/-- Counterexample to C3 as stated: with first exponents `2147483647` and `-1` the
difference is not an `int`, `DimensionMinusImpl<int, 2147483647, -1>::value` is not a
constant, and the quotient has no type at all. -/
theorem operatorDiv_exponent_overflow :
    DimensionMinusImpl .int 2147483647 (-1) = none ∧
    operatorDiv (⟨6⟩ : Quantity Int (DimensionVector .int [2147483647, 0, 0, 0, 0, 0, 0]))
        (⟨3⟩ : Quantity Int (DimensionVector .int [-1, 0, 0, 0, 0, 0, 0])) = none := by
  constructor
  · decide
  · rfl

theorem packExpansion_isSome_iff (f : MetaFunc) (V : ValueType) :
    ∀ Args1 Args2 : List Int, (packExpansion f V Args1 Args2).isSome = true ↔
      (Args1.length = Args2.length ∧
        ∀ p ∈ Args1.zip Args2, (f.Apply V p.1 p.2).isSome = true)
  | [], [] => by simp [packExpansion]
  | [], _ :: _ => by simp [packExpansion]
  | _ :: _, [] => by simp [packExpansion]
  | a :: Args1, b :: Args2 => by
    have ih := packExpansion_isSome_iff f V Args1 Args2
    unfold packExpansion
    cases hv : f.Apply V a b with
    | none => simp [hv]
    | some v =>
      cases hvs : packExpansion f V Args1 Args2 with
      | none =>
        rw [hvs] at ih
        simp only [Option.isSome_none, Bool.false_eq_true, false_iff] at ih
        simp only [Option.isSome_none, Bool.false_eq_true, false_iff]
        intro h
        apply ih
        refine ⟨by simpa using h.1, fun p hp => h.2 p ?_⟩
        simp [hp]
      | some vs =>
        rw [hvs] at ih
        simp only [Option.isSome_some, true_iff] at ih
        simp [hv, ih.1]
        intro a1 b1 hp
        exact ih.2 (a1, b1) hp

theorem DimensionTransform_isSome_iff (D1 D2 : TypeArg) (f : MetaFunc) :
    (DimensionTransform D1 D2 f).isSome = true ↔
      ∃ t1 t2 V Args1 Args2, D1 = .inst t1 V Args1 ∧ D2 = .inst t2 V Args2 ∧
        Args1.length = Args2.length ∧
        ∀ p ∈ Args1.zip Args2, (f.Apply V p.1 p.2).isSome = true := by
  cases D1 with
  | other n => simp [DimensionTransform]
  | inst t1 V1 Args1 =>
    cases D2 with
    | other n => simp [DimensionTransform]
    | inst t2 V2 Args2 =>
      by_cases hV : V1 = V2
      · subst hV
        simp only [DimensionTransform, if_true, Option.isSome_map',
          packExpansion_isSome_iff]
        constructor
        · intro h
          exact ⟨t1, t2, V1, Args1, Args2, rfl, rfl, h.1, h.2⟩
        · rintro ⟨_, _, _, _, _, h1, h2, hlen, hall⟩
          cases h1
          cases h2
          exact ⟨hlen, hall⟩
      · simp only [DimensionTransform, hV, if_false, Option.isSome_none,
          Bool.false_eq_true, false_iff]
        rintro ⟨_, _, _, _, _, h1, h2, _, _⟩
        cases h1
        cases h2
        exact hV rfl

/-- Claim C6, as amended. `DimensionTransform` yields a result exactly when both tags are
specialisations `T1<V, Args1...>` and `T2<V, Args2...>` over one and the same exponent type
`V`, with the same number of exponents, and every combined exponent is a constant (which it
is whenever it is representable in `V`); `operator*` produces a result exactly when the
derivation with `DimensionPlus` does, and `operator/` exactly when the derivation with
`DimensionMinus` does. -/
theorem operatorMul_operatorDiv_defined_iff {T : Type} [Mul T] [Div T]
    (D1 D2 : TypeArg) (lhs : Quantity T D1) (rhs : Quantity T D2) :
    (∀ f : MetaFunc, (DimensionTransform D1 D2 f).isSome = true ↔
      ∃ t1 t2 V Args1 Args2, D1 = .inst t1 V Args1 ∧ D2 = .inst t2 V Args2 ∧
        Args1.length = Args2.length ∧
        ∀ p ∈ Args1.zip Args2, (f.Apply V p.1 p.2).isSome = true) ∧
    (∀ (V : ValueType) (l r : Int),
      ((MetaFunc.Apply .DimensionPlus V l r).isSome = true ↔
        (V.representable (l + r) ∨ ¬ (V.isSigned = true ∧ 32 ≤ V.bits))) ∧
      ((MetaFunc.Apply .DimensionMinus V l r).isSome = true ↔
        (V.representable (l - r) ∨ ¬ (V.isSigned = true ∧ 32 ≤ V.bits)))) ∧
    (operatorMul lhs rhs).isSome = (DimensionTransform D1 D2 .DimensionPlus).isSome ∧
    (operatorDiv lhs rhs).isSome = (DimensionTransform D1 D2 .DimensionMinus).isSome := by
  refine ⟨fun f => DimensionTransform_isSome_iff D1 D2 f, ?_, ?_, ?_⟩
  · intro V l r
    exact ⟨constant_isSome_iff V (l + r), constant_isSome_iff V (l - r)⟩
  · unfold operatorMul
    cases DimensionTransform D1 D2 .DimensionPlus <;> rfl
  · unfold operatorDiv
    cases DimensionTransform D1 D2 .DimensionMinus <;> rfl

/-- Counterexample to C6 as stated: a `Quantity` can carry any type as its tag, and for
the tag `int` (primary template, no member `Type`), for vectors with different numbers of
exponents, for vectors over different exponent types and for exponents whose sum is not an
`int`, neither the derivation nor the operators produce a result. -/
theorem operatorMul_operatorDiv_rejected :
    DimensionTransform (.other "int") length .DimensionPlus = none ∧
    operatorMul (⟨6⟩ : Quantity Int (.other "int")) (⟨3⟩ : Quantity Int length) = none ∧
    operatorDiv (⟨6⟩ : Quantity Int (.other "int")) (⟨3⟩ : Quantity Int length) = none ∧
    operatorMul (⟨6⟩ : Quantity Int length)
      (⟨3⟩ : Quantity Int (DimensionVector .int [0, 0, 1])) = none ∧
    operatorDiv (⟨6⟩ : Quantity Int length)
      (⟨3⟩ : Quantity Int (DimensionVector .int [0, 0, 1])) = none ∧
    operatorMul (⟨6⟩ : Quantity Int length)
      (⟨3⟩ : Quantity Int (DimensionVector .long [0, 0, 1, 0, 0, 0, 0])) = none ∧
    operatorMul (⟨6⟩ : Quantity Int (DimensionVector .int [2147483647, 0, 0, 0, 0, 0, 0]))
      (⟨3⟩ : Quantity Int mass) = none := by
  refine ⟨by decide, rfl, rfl, rfl, rfl, rfl, rfl⟩

/-- Claim C7, as amended. Each of the seven predefined base-unit vectors has exactly seven
exponents, and the derivation keeps the number of exponents: whenever `DimensionTransform`
yields a result, both tags are specialisations with equally many exponents and the result is
a `DimensionVector` with that same number of exponents (seven for seven-exponent operands).
The `DimensionVector` template itself is variadic and admits any number of exponents. -/
theorem DimensionVector_exponent_count :
    (∀ D ∈ [mass, length, time, electric_current, thermodynamic_temperature,
        luminous_intensity, amount_of_substance],
      ∃ Args, D = DimensionVector .int Args ∧ Args.length = 7) ∧
    (∀ (D1 D2 R : TypeArg) (f : MetaFunc), DimensionTransform D1 D2 f = some R →
      ∃ t1 t2 V Args1 Args2 Args, D1 = .inst t1 V Args1 ∧ D2 = .inst t2 V Args2 ∧
        R = DimensionVector V Args ∧
        Args.length = Args1.length ∧ Args.length = Args2.length) := by
  constructor
  · intro D hD
    simp only [List.mem_cons, List.mem_singleton, List.not_mem_nil, or_false] at hD
    rcases hD with h | h | h | h | h | h | h <;> subst h <;> exact ⟨_, rfl, rfl⟩
  · intro D1 D2 R f h
    cases D1 with
    | other n => simp [DimensionTransform] at h
    | inst t1 V1 Args1 =>
      cases D2 with
      | other n => simp [DimensionTransform] at h
      | inst t2 V2 Args2 =>
        by_cases hV : V1 = V2
        · subst hV
          simp only [DimensionTransform, if_true] at h
          cases hp : packExpansion f V1 Args1 Args2 with
          | none => simp [hp] at h
          | some Args =>
            simp only [hp, Option.map_some', Option.some.injEq] at h
            have hl := packExpansion_length f V1 Args1 Args2 Args hp
            exact ⟨t1, t2, V1, Args1, Args2, Args, rfl, rfl, h.symm, hl.1, hl.2⟩
        · simp [DimensionTransform, hV] at h

/-- Witness for C7: the derivation applied to `length` and `time`, seven exponents in and
seven exponents out. -/
theorem DimensionVector_exponent_count_witness :
    ∃ t1 t2 V Args1 Args2 Args, length = .inst t1 V Args1 ∧ time = .inst t2 V Args2 ∧
      DimensionVector .int [0, 1, -1, 0, 0, 0, 0] = DimensionVector V Args ∧
      Args.length = Args1.length ∧ Args.length = Args2.length :=
  DimensionVector_exponent_count.2 length time (DimensionVector .int [0, 1, -1, 0, 0, 0, 0])
    .DimensionMinus (by decide)

/-- Counterexample to C7 as stated: `DimensionVector<int, 1, 2>` is a value of the
`DimensionVector` type with two exponents, a `Quantity` can carry it, and the derivation
accepts it and returns another two-exponent vector. -/
theorem DimensionVector_two_exponents :
    (DimensionVector .int [1, 2]).exponents = some [1, 2] ∧
    ([1, 2] : List Int).length ≠ 7 ∧
    DimensionTransform (DimensionVector .int [1, 2]) (DimensionVector .int [3, 4])
      .DimensionPlus = some (DimensionVector .int [4, 6]) ∧
    operatorMul (⟨6⟩ : Quantity Int (DimensionVector .int [1, 2]))
      (⟨7⟩ : Quantity Int (DimensionVector .int [3, 4]))
      = some ⟨DimensionVector .int [4, 6], ⟨42⟩⟩ := by
  refine ⟨rfl, by decide, by decide, rfl⟩

/-- Claim C8. For all values `x`, `y`: dividing a quantity of dimension `length` by one of
dimension `time` gives a quantity of dimension `(0,1,-1,0,0,0,0)`, and multiplying a
quantity of dimension `length` by one of dimension `(0,0,-1,0,0,0,0)` gives a quantity of
that same dimension. -/
theorem velocity_dimension {T : Type} [Mul T] [Div T] (x y : T) :
    operatorDiv (⟨x⟩ : Quantity T length) (⟨y⟩ : Quantity T time)
      = some ⟨DimensionVector .int [0, 1, -1, 0, 0, 0, 0], ⟨x / y⟩⟩ ∧
    operatorMul (⟨x⟩ : Quantity T length)
        (⟨y⟩ : Quantity T (DimensionVector .int [0, 0, -1, 0, 0, 0, 0]))
      = some ⟨DimensionVector .int [0, 1, -1, 0, 0, 0, 0], ⟨x * y⟩⟩ := by
  constructor
  · rfl
  · rfl

/-- Claim C9. For all values `x`, `y`: `length * length` has dimension `(0,2,0,0,0,0,0)`,
and for `y ≠ 0`, `length / length` has the all-zero dimension and its value is the plain
quotient `x / y`; the dimensionless result is an ordinary `Quantity` like any other. -/
theorem area_and_dimensionless {T : Type} [Mul T] [Div T] [Zero T] (x y : T) :
    operatorMul (⟨x⟩ : Quantity T length) (⟨y⟩ : Quantity T length)
      = some ⟨DimensionVector .int [0, 2, 0, 0, 0, 0, 0], ⟨x * y⟩⟩ ∧
    (y ≠ 0 →
      operatorDiv (⟨x⟩ : Quantity T length) (⟨y⟩ : Quantity T length)
        = some ⟨DimensionVector .int [0, 0, 0, 0, 0, 0, 0], ⟨x / y⟩⟩ ∧
      ∀ r, operatorDiv (⟨x⟩ : Quantity T length) (⟨y⟩ : Quantity T length) = some r →
        r.2.Value = x / y) := by
  refine ⟨rfl, fun _ => ⟨rfl, ?_⟩⟩
  intro r hr
  have h : operatorDiv (⟨x⟩ : Quantity T length) (⟨y⟩ : Quantity T length)
      = some ⟨DimensionVector .int [0, 0, 0, 0, 0, 0, 0], ⟨x / y⟩⟩ := rfl
  rw [h] at hr
  cases hr
  rfl

/-- Witness for C9 at `x = 6`, `y = 3`. -/
theorem area_and_dimensionless_witness :
    operatorMul (⟨6⟩ : Quantity Int length) (⟨3⟩ : Quantity Int length)
      = some ⟨DimensionVector .int [0, 2, 0, 0, 0, 0, 0], ⟨18⟩⟩ ∧
    operatorDiv (⟨6⟩ : Quantity Int length) (⟨3⟩ : Quantity Int length)
      = some ⟨DimensionVector .int [0, 0, 0, 0, 0, 0, 0], ⟨2⟩⟩ :=
  ⟨(area_and_dimensionless (6 : Int) 3).1, ((area_and_dimensionless (6 : Int) 3).2 (by decide)).1⟩

theorem wrap_of_representable (V : ValueType) (m : Int) (h : V.representable m) :
    V.wrap m = m := by
  cases V <;>
    simp [ValueType.wrap, ValueType.representable, ValueType.minValue, ValueType.maxValue,
      ValueType.bits, ValueType.isSigned] at h ⊢ <;> omega

theorem constant_eq_wrap (V : ValueType) (m x : Int) (h : V.constant m = some x) :
    x = V.wrap m := by
  unfold ValueType.constant at h
  by_cases hr : V.representable m
  · simp [hr] at h
    rw [← h, wrap_of_representable V m hr]
  · by_cases hs : (V.isSigned && decide (32 ≤ V.bits)) = true
    · simp [hr, hs] at h
    · simp [hr, hs] at h
      exact h.symm

theorem wrap_wrap_add (V : ValueType) (m c : Int) :
    V.wrap (V.wrap m + c) = V.wrap (m + c) := by
  cases V <;>
    simp [ValueType.wrap, ValueType.minValue, ValueType.bits, ValueType.isSigned] <;> omega

theorem wrap_add_wrap (V : ValueType) (a m : Int) :
    V.wrap (a + V.wrap m) = V.wrap (a + m) := by
  cases V <;>
    simp [ValueType.wrap, ValueType.minValue, ValueType.bits, ValueType.isSigned] <;> omega

theorem packExpansion_cons_eq_some (f : MetaFunc) (V : ValueType) (a b : Int)
    (Args1 Args2 R : List Int) :
    packExpansion f V (a :: Args1) (b :: Args2) = some R ↔
      ∃ v vs, f.Apply V a b = some v ∧ packExpansion f V Args1 Args2 = some vs ∧
        R = v :: vs := by
  rw [packExpansion]
  cases hv : f.Apply V a b with
  | none => simp
  | some v =>
    cases hvs : packExpansion f V Args1 Args2 with
    | none => simp
    | some vs =>
      simp only [Option.some.injEq]
      constructor
      · intro h
        exact ⟨v, vs, rfl, rfl, h.symm⟩
      · rintro ⟨v1, vs1, h1, h2, h3⟩
        rw [h3, ← h1, ← h2]

theorem DimensionTransform_eq_some_iff (D1 D2 R : TypeArg) (f : MetaFunc) :
    DimensionTransform D1 D2 f = some R ↔
      ∃ t1 t2 V Args1 Args2 Args, D1 = .inst t1 V Args1 ∧ D2 = .inst t2 V Args2 ∧
        packExpansion f V Args1 Args2 = some Args ∧ R = DimensionVector V Args := by
  cases D1 with
  | other n => simp [DimensionTransform]
  | inst t1 V1 Args1 =>
    cases D2 with
    | other n => simp [DimensionTransform]
    | inst t2 V2 Args2 =>
      by_cases hV : V1 = V2
      · subst hV
        simp only [DimensionTransform, if_true]
        constructor
        · intro h
          cases hp : packExpansion f V1 Args1 Args2 with
          | none => simp [hp] at h
          | some Args =>
            simp only [hp, Option.map_some', Option.some.injEq] at h
            exact ⟨t1, t2, V1, Args1, Args2, Args, rfl, rfl, hp, h.symm⟩
        · rintro ⟨_, _, _, _, _, Args, h1, h2, hp, hR⟩
          cases h1
          cases h2
          simp [hp, hR]
      · simp only [DimensionTransform, hV, if_false]
        constructor
        · intro h
          cases h
        · rintro ⟨_, _, _, _, _, _, h1, h2, _, _⟩
          cases h1
          cases h2
          exact absurd rfl hV

theorem zipWith_add_assoc :
    ∀ a b c : List Int,
      List.zipWith (· + ·) (List.zipWith (· + ·) a b) c
        = List.zipWith (· + ·) a (List.zipWith (· + ·) b c)
  | [], _, _ => by simp
  | _ :: _, [], _ => by simp
  | _ :: _, _ :: _, [] => by simp
  | x :: a, y :: b, z :: c => by
    simp [zipWith_add_assoc a b c, add_assoc]

theorem packExpansion_plus_assoc (V : ValueType) :
    ∀ a b c ab bc l r : List Int,
      packExpansion .DimensionPlus V a b = some ab →
      packExpansion .DimensionPlus V ab c = some l →
      packExpansion .DimensionPlus V b c = some bc →
      packExpansion .DimensionPlus V a bc = some r → l = r
  | [], [], c, ab, bc, l, r, h1, h2, h3, h4 => by
    simp [packExpansion] at h1
    subst h1
    cases c with
    | nil =>
      simp [packExpansion] at h2 h3
      subst h3
      simp [packExpansion] at h4
      rw [h2, h4]
    | cons z c => simp [packExpansion] at h2
  | [], _ :: _, _, _, _, _, _, h1, _, _, _ => by simp [packExpansion] at h1
  | _ :: _, [], _, _, _, _, _, h1, _, _, _ => by simp [packExpansion] at h1
  | x :: a, y :: b, [], ab, bc, l, r, _, _, h3, _ => by simp [packExpansion] at h3
  | x :: a, y :: b, z :: c, ab, bc, l, r, h1, h2, h3, h4 => by
    obtain ⟨v1, vs1, hv1, hvs1, rfl⟩ := (packExpansion_cons_eq_some _ V x y a b ab).1 h1
    obtain ⟨v3, vs3, hv3, hvs3, rfl⟩ := (packExpansion_cons_eq_some _ V y z b c bc).1 h3
    obtain ⟨v2, vs2, hv2, hvs2, rfl⟩ := (packExpansion_cons_eq_some _ V v1 z vs1 c l).1 h2
    obtain ⟨v4, vs4, hv4, hvs4, rfl⟩ := (packExpansion_cons_eq_some _ V x v3 a vs3 r).1 h4
    have htail := packExpansion_plus_assoc V a b c vs1 vs3 vs2 vs4 hvs1 hvs2 hvs3 hvs4
    have e1 := constant_eq_wrap V _ _ hv1
    have e2 := constant_eq_wrap V _ _ hv2
    have e3 := constant_eq_wrap V _ _ hv3
    have e4 := constant_eq_wrap V _ _ hv4
    have hhead : v2 = v4 := by
      rw [e2, e4, e1, e3, wrap_wrap_add, wrap_add_wrap, add_assoc]
    rw [hhead, htail]

/-- Claim C10, as amended. For all tags `A`, `B`, `C`: whenever both
`DimensionTransform(DimensionTransform(A,B,Plus),C,Plus)` and
`DimensionTransform(A,DimensionTransform(B,C,Plus),Plus)` exist, they are the same
dimension vector; and for dimension vectors over one exponent type with equally many
exponents whose elementwise sums `A+B`, `B+C` and `A+B+C` are all representable in that
type, both exist and both are the elementwise sum `A+B+C`. -/
theorem DimensionTransform_plus_assoc :
    (∀ A B C L R : TypeArg,
      (DimensionTransform A B .DimensionPlus).bind
          (fun AB => DimensionTransform AB C .DimensionPlus) = some L →
      (DimensionTransform B C .DimensionPlus).bind
          (fun BC => DimensionTransform A BC .DimensionPlus) = some R →
      L = R) ∧
    (∀ (V : ValueType) (a b c : List Int), a.length = b.length → b.length = c.length →
      (∀ m ∈ List.zipWith (· + ·) a b, V.representable m) →
      (∀ m ∈ List.zipWith (· + ·) b c, V.representable m) →
      (∀ m ∈ List.zipWith (· + ·) (List.zipWith (· + ·) a b) c, V.representable m) →
      (DimensionTransform (DimensionVector V a) (DimensionVector V b) .DimensionPlus).bind
          (fun AB => DimensionTransform AB (DimensionVector V c) .DimensionPlus)
        = some (DimensionVector V (List.zipWith (· + ·) (List.zipWith (· + ·) a b) c)) ∧
      (DimensionTransform (DimensionVector V b) (DimensionVector V c) .DimensionPlus).bind
          (fun BC => DimensionTransform (DimensionVector V a) BC .DimensionPlus)
        = some (DimensionVector V (List.zipWith (· + ·) (List.zipWith (· + ·) a b) c))) := by
  constructor
  · intro A B C L R hL hR
    obtain ⟨AB, hAB, hL⟩ := Option.bind_eq_some.1 hL
    obtain ⟨BC, hBC, hR⟩ := Option.bind_eq_some.1 hR
    obtain ⟨tA, tB, V, a, b, ab, rfl, rfl, hab, rfl⟩ :=
      (DimensionTransform_eq_some_iff _ _ _ _).1 hAB
    obtain ⟨_, tC, V1, ab1, c, l, h1, rfl, hl, rfl⟩ :=
      (DimensionTransform_eq_some_iff _ _ _ _).1 hL
    simp only [DimensionVector, TypeArg.inst.injEq] at h1
    obtain ⟨-, rfl, rfl⟩ := h1
    obtain ⟨_, _, V2, b2, c2, bc, h2, h3, hbc, rfl⟩ :=
      (DimensionTransform_eq_some_iff _ _ _ _).1 hBC
    simp only [TypeArg.inst.injEq] at h2 h3
    obtain ⟨-, rfl, rfl⟩ := h2
    obtain ⟨-, -, rfl⟩ := h3
    obtain ⟨_, _, V3, a3, bc3, r, h4, h5, hr, rfl⟩ :=
      (DimensionTransform_eq_some_iff _ _ _ _).1 hR
    simp only [DimensionVector, TypeArg.inst.injEq] at h4 h5
    obtain ⟨-, rfl, rfl⟩ := h4
    obtain ⟨-, -, rfl⟩ := h5
    rw [packExpansion_plus_assoc V a b c ab bc l r hab hl hbc hr]
  · intro V a b c hab hbc rab rbc rabc
    have hlen1 : (List.zipWith (· + ·) a b).length = c.length := by
      simp [List.length_zipWith, hab, hbc]
    have hlen2 : a.length = (List.zipWith (· + ·) b c).length := by
      simp [List.length_zipWith, hab, hbc]
    constructor
    · rw [DimensionTransform_plus_of_representable V a b hab rab]
      exact DimensionTransform_plus_of_representable V _ c hlen1 rabc
    · rw [DimensionTransform_plus_of_representable V b c hbc rbc, zipWith_add_assoc]
      exact DimensionTransform_plus_of_representable V a _ hlen2
        (by rw [← zipWith_add_assoc]; exact rabc)

/-- Witness for C10: `(mass * length) * time` and `mass * (length * time)` both have the
dimension `(1,1,1,0,0,0,0)`. -/
theorem DimensionTransform_plus_assoc_witness :
    (DimensionTransform mass length .DimensionPlus).bind
        (fun AB => DimensionTransform AB time .DimensionPlus)
      = some (DimensionVector .int [1, 1, 1, 0, 0, 0, 0]) ∧
    (DimensionTransform length time .DimensionPlus).bind
        (fun BC => DimensionTransform mass BC .DimensionPlus)
      = some (DimensionVector .int [1, 1, 1, 0, 0, 0, 0]) :=
  DimensionTransform_plus_assoc.2 .int [1, 0, 0, 0, 0, 0, 0] [0, 1, 0, 0, 0, 0, 0]
    [0, 0, 1, 0, 0, 0, 0] rfl rfl (by decide) (by decide) (by decide)

/-- Counterexample to C10 as stated: with `A = (2147483647,0,0,0,0,0,0)`, `B = mass` and
`C = (-1,0,0,0,0,0,0)` the derivation of `A*B` overflows, so `(A*B)*C` has no dimension
vector, while `A*(B*C)` has the dimension vector `A`. -/
theorem DimensionTransform_plus_not_assoc :
    (DimensionTransform (DimensionVector .int [2147483647, 0, 0, 0, 0, 0, 0]) mass
        .DimensionPlus).bind
        (fun AB => DimensionTransform AB (DimensionVector .int [-1, 0, 0, 0, 0, 0, 0])
          .DimensionPlus) = none ∧
    (DimensionTransform mass (DimensionVector .int [-1, 0, 0, 0, 0, 0, 0])
        .DimensionPlus).bind
        (fun BC => DimensionTransform (DimensionVector .int [2147483647, 0, 0, 0, 0, 0, 0]) BC
          .DimensionPlus) = some (DimensionVector .int [2147483647, 0, 0, 0, 0, 0, 0]) := by
  constructor <;> decide

/-! ## Commutativity -/

theorem packExpansion_plus_comm (V : ValueType) :
    ∀ Args1 Args2 : List Int,
      packExpansion .DimensionPlus V Args1 Args2 = packExpansion .DimensionPlus V Args2 Args1
  | [], [] => rfl
  | [], _ :: _ => by simp [packExpansion]
  | _ :: _, [] => by simp [packExpansion]
  | a :: Args1, b :: Args2 => by
    simp [packExpansion, MetaFunc.Apply, DimensionPlusImpl, add_comm a b,
      packExpansion_plus_comm V Args1 Args2]

theorem DimensionTransform_plus_comm (D1 D2 : TypeArg) :
    DimensionTransform D1 D2 .DimensionPlus = DimensionTransform D2 D1 .DimensionPlus := by
  cases D1 with
  | other n => cases D2 <;> simp [DimensionTransform]
  | inst t1 V1 Args1 =>
    cases D2 with
    | other n => simp [DimensionTransform]
    | inst t2 V2 Args2 =>
      by_cases hV : V1 = V2
      · subst hV
        simp [DimensionTransform, packExpansion_plus_comm V1 Args1 Args2]
      · have hV2 : ¬ V2 = V1 := fun h => hV h.symm
        simp [DimensionTransform, hV, hV2]

theorem constant_exact (V : ValueType) (m x : Int) (hs : V.isSigned = true)
    (hb : 32 ≤ V.bits) (h : V.constant m = some x) : x = m := by
  unfold ValueType.constant at h
  by_cases hr : V.representable m
  · simp [hr] at h
    exact h.symm
  · simp [hr, hs, hb] at h

theorem packExpansion_minus_exact (V : ValueType) (hs : V.isSigned = true)
    (hb : 32 ≤ V.bits) :
    ∀ Args1 Args2 R : List Int, packExpansion .DimensionMinus V Args1 Args2 = some R →
      R = List.zipWith (· - ·) Args1 Args2 ∧ Args1.length = Args2.length
  | [], [], R, h => by
    simp [packExpansion] at h
    simp [h]
  | [], _ :: _, R, h => by simp [packExpansion] at h
  | _ :: _, [], R, h => by simp [packExpansion] at h
  | a :: Args1, b :: Args2, R, h => by
    obtain ⟨v, vs, hv, hvs, rfl⟩ := (packExpansion_cons_eq_some _ V a b Args1 Args2 R).1 h
    have ih := packExpansion_minus_exact V hs hb Args1 Args2 vs hvs
    have hx : v = a - b := constant_exact V (a - b) v hs hb hv
    simp [hx, ih.1, ih.2]

theorem zipWith_sub_swap :
    ∀ a b : List Int,
      List.zipWith (· - ·) b a = (List.zipWith (· - ·) a b).map (fun e => -e)
  | [], [] => rfl
  | [], _ :: _ => by simp
  | _ :: _, [] => by simp
  | x :: a, y :: b => by
    simp [zipWith_sub_swap a b]

theorem zipWith_sub_eq_swap :
    ∀ a b : List Int, a.length = b.length →
      List.zipWith (· - ·) a b = List.zipWith (· - ·) b a → a = b
  | [], [], _, _ => rfl
  | [], _ :: _, hlen, _ => by simp at hlen
  | _ :: _, [], hlen, _ => by simp at hlen
  | x :: a, y :: b, hlen, h => by
    simp only [List.zipWith_cons_cons, List.cons.injEq] at h
    have hxy : x = y := by omega
    have ht := zipWith_sub_eq_swap a b (by simpa using hlen) h.2
    rw [hxy, ht]

/-- Claim C11, as amended. The derivation is commutative for `DimensionPlus` and not for
`DimensionMinus`: for all tags `D1`, `D2` the `DimensionPlus` derivation of `(D1, D2)` is
that of `(D2, D1)`; the `DimensionMinus` derivations of `(length, time)` and
`(time, length)` differ; and for two dimension vectors with `int`, `long` or `long long`
exponents for which both `DimensionMinus` derivations exist, each is the elementwise
negation of the other, so that for such exponents the two derivations are one and the same
existing vector only when `D1 = D2`. -/
theorem DimensionTransform_comm_plus_not_minus :
    (∀ D1 D2 : TypeArg,
      DimensionTransform D1 D2 .DimensionPlus = DimensionTransform D2 D1 .DimensionPlus) ∧
    DimensionTransform length time .DimensionMinus
      ≠ DimensionTransform time length .DimensionMinus ∧
    (∀ (V : ValueType) (Args1 Args2 : List Int) (R1 R2 : TypeArg),
      V.isSigned = true → 32 ≤ V.bits →
      DimensionTransform (DimensionVector V Args1) (DimensionVector V Args2)
        .DimensionMinus = some R1 →
      DimensionTransform (DimensionVector V Args2) (DimensionVector V Args1)
        .DimensionMinus = some R2 →
      R1 = DimensionVector V (List.zipWith (· - ·) Args1 Args2) ∧
      R2 = DimensionVector V ((List.zipWith (· - ·) Args1 Args2).map (fun e => -e)) ∧
      (R1 = R2 → DimensionVector V Args1 = DimensionVector V Args2)) ∧
    (∀ (V : ValueType) (Args1 Args2 : List Int),
      V.isSigned = true → 32 ≤ V.bits →
      (DimensionTransform (DimensionVector V Args1) (DimensionVector V Args2)
        .DimensionMinus).isSome = true →
      DimensionTransform (DimensionVector V Args1) (DimensionVector V Args2) .DimensionMinus
        = DimensionTransform (DimensionVector V Args2) (DimensionVector V Args1)
            .DimensionMinus →
      DimensionVector V Args1 = DimensionVector V Args2) := by
  have main : ∀ (V : ValueType) (Args1 Args2 : List Int) (R1 R2 : TypeArg),
      V.isSigned = true → 32 ≤ V.bits →
      DimensionTransform (DimensionVector V Args1) (DimensionVector V Args2)
        .DimensionMinus = some R1 →
      DimensionTransform (DimensionVector V Args2) (DimensionVector V Args1)
        .DimensionMinus = some R2 →
      R1 = DimensionVector V (List.zipWith (· - ·) Args1 Args2) ∧
      R2 = DimensionVector V ((List.zipWith (· - ·) Args1 Args2).map (fun e => -e)) ∧
      (R1 = R2 → DimensionVector V Args1 = DimensionVector V Args2) := by
    intro V Args1 Args2 R1 R2 hs hb h1 h2
    obtain ⟨_, _, V1, a1, b1, r1, e1, e2, hp1, rfl⟩ :=
      (DimensionTransform_eq_some_iff _ _ _ _).1 h1
    simp only [DimensionVector, TypeArg.inst.injEq] at e1 e2
    obtain ⟨-, rfl, rfl⟩ := e1
    obtain ⟨-, -, rfl⟩ := e2
    obtain ⟨_, _, V2, a2, b2, r2, e3, e4, hp2, rfl⟩ :=
      (DimensionTransform_eq_some_iff _ _ _ _).1 h2
    simp only [DimensionVector, TypeArg.inst.injEq] at e3 e4
    obtain ⟨-, rfl, rfl⟩ := e3
    obtain ⟨-, -, rfl⟩ := e4
    have x1 := packExpansion_minus_exact V hs hb Args1 Args2 r1 hp1
    have x2 := packExpansion_minus_exact V hs hb Args2 Args1 r2 hp2
    refine ⟨by rw [x1.1], by rw [x2.1, zipWith_sub_swap], ?_⟩
    intro hR
    simp only [DimensionVector, TypeArg.inst.injEq, true_and] at hR
    rw [x1.1, x2.1] at hR
    rw [zipWith_sub_eq_swap Args1 Args2 x1.2 hR]
  refine ⟨DimensionTransform_plus_comm, by decide, main, ?_⟩
  intro V Args1 Args2 hs hb hsome heq
  obtain ⟨R, hR⟩ := Option.isSome_iff_exists.1 hsome
  have hR2 : DimensionTransform (DimensionVector V Args2) (DimensionVector V Args1)
      .DimensionMinus = some R := by rw [← heq, hR]
  exact (main V Args1 Args2 R R hs hb hR hR2).2.2 rfl

/-- Counterexample to C11 as stated. The `DimensionMinus` derivation of `(D1, D2)` is not
always the elementwise negation of that of `(D2, D1)`, and the two can agree although
`D1 ≠ D2`: with `int` exponents, `(-2147483648,0,0,0,0,0,0)` minus the zero vector exists
while the reverse derivation overflows and does not exist; with `unsigned int` exponents,
`(2147483648,0,0,0,0,0,0)` and the zero vector are different vectors whose two
`DimensionMinus` derivations are the same vector; likewise with `signed char` exponents
for `(-128,0,0,0,0,0,0)` and the zero vector. -/
theorem DimensionTransform_minus_not_negation :
    (DimensionTransform (DimensionVector .int [-2147483648, 0, 0, 0, 0, 0, 0])
        (DimensionVector .int [0, 0, 0, 0, 0, 0, 0]) .DimensionMinus
      = some (DimensionVector .int [-2147483648, 0, 0, 0, 0, 0, 0]) ∧
     DimensionTransform (DimensionVector .int [0, 0, 0, 0, 0, 0, 0])
        (DimensionVector .int [-2147483648, 0, 0, 0, 0, 0, 0]) .DimensionMinus = none) ∧
    ((DimensionVector .unsigned_int [2147483648, 0, 0, 0, 0, 0, 0]).WellFormed ∧
     DimensionVector .unsigned_int [2147483648, 0, 0, 0, 0, 0, 0]
      ≠ DimensionVector .unsigned_int [0, 0, 0, 0, 0, 0, 0] ∧
     DimensionTransform (DimensionVector .unsigned_int [2147483648, 0, 0, 0, 0, 0, 0])
        (DimensionVector .unsigned_int [0, 0, 0, 0, 0, 0, 0]) .DimensionMinus
      = some (DimensionVector .unsigned_int [2147483648, 0, 0, 0, 0, 0, 0]) ∧
     DimensionTransform (DimensionVector .unsigned_int [0, 0, 0, 0, 0, 0, 0])
        (DimensionVector .unsigned_int [2147483648, 0, 0, 0, 0, 0, 0]) .DimensionMinus
      = some (DimensionVector .unsigned_int [2147483648, 0, 0, 0, 0, 0, 0])) ∧
    ((DimensionVector .signed_char [-128, 0, 0, 0, 0, 0, 0]).WellFormed ∧
     DimensionVector .signed_char [-128, 0, 0, 0, 0, 0, 0]
      ≠ DimensionVector .signed_char [0, 0, 0, 0, 0, 0, 0] ∧
     DimensionTransform (DimensionVector .signed_char [-128, 0, 0, 0, 0, 0, 0])
        (DimensionVector .signed_char [0, 0, 0, 0, 0, 0, 0]) .DimensionMinus
      = DimensionTransform (DimensionVector .signed_char [0, 0, 0, 0, 0, 0, 0])
          (DimensionVector .signed_char [-128, 0, 0, 0, 0, 0, 0]) .DimensionMinus ∧
     DimensionTransform (DimensionVector .signed_char [-128, 0, 0, 0, 0, 0, 0])
        (DimensionVector .signed_char [0, 0, 0, 0, 0, 0, 0]) .DimensionMinus
      = some (DimensionVector .signed_char [-128, 0, 0, 0, 0, 0, 0])) := by
  refine ⟨⟨by decide, by decide⟩, ⟨by decide, by decide, by decide, by decide⟩,
    ⟨by decide, by decide, by decide, by decide⟩⟩

/-- Witness for C11: `length / time` has dimension `(0,1,-1,0,0,0,0)` and `time / length`
has its elementwise negation `(0,-1,1,0,0,0,0)`. -/
theorem DimensionTransform_comm_plus_not_minus_witness :
    DimensionVector .int [0, 1, -1, 0, 0, 0, 0]
      = DimensionVector .int (List.zipWith (· - ·) [0, 1, 0, 0, 0, 0, 0] [0, 0, 1, 0, 0, 0, 0]) ∧
    DimensionVector .int [0, -1, 1, 0, 0, 0, 0]
      = DimensionVector .int ((List.zipWith (· - ·) [0, 1, 0, 0, 0, 0, 0]
          [0, 0, 1, 0, 0, 0, 0]).map (fun e => -e)) ∧
    (DimensionVector .int [0, 1, -1, 0, 0, 0, 0] = DimensionVector .int [0, -1, 1, 0, 0, 0, 0] →
      DimensionVector .int [0, 1, 0, 0, 0, 0, 0] = DimensionVector .int [0, 0, 1, 0, 0, 0, 0]) :=
  DimensionTransform_comm_plus_not_minus.2.2.1 .int [0, 1, 0, 0, 0, 0, 0] [0, 0, 1, 0, 0, 0, 0]
    (DimensionVector .int [0, 1, -1, 0, 0, 0, 0]) (DimensionVector .int [0, -1, 1, 0, 0, 0, 0])
    rfl (by decide) (by decide) (by decide)

/-! ## Base units and construction -/

/-- Claim C12. The seven predefined base-unit vectors, taken in the canonical order
mass, length, time, electric current, thermodynamic temperature, luminous intensity, amount
of substance, are `int` vectors of seven exponents; the vector at position `i` has exponent
`1` at index `i` and exponent `0` at the six other indices; and the seven are pairwise
distinct. -/
theorem base_units_unit_exponents :
    (∀ i : Fin 7,
      [mass, length, time, electric_current, thermodynamic_temperature,
        luminous_intensity, amount_of_substance].get i
        = DimensionVector .int
            ((List.range 7).map (fun j => if j = i.val then (1 : Int) else 0))) ∧
    (∀ i j : Fin 7,
      ([mass, length, time, electric_current, thermodynamic_temperature,
        luminous_intensity, amount_of_substance].get i).exponents.bind (fun Args => Args[j.val]?)
        = some (if j = i then (1 : Int) else 0)) ∧
    [mass, length, time, electric_current, thermodynamic_temperature,
      luminous_intensity, amount_of_substance].Pairwise (fun D1 D2 => D1 ≠ D2) := by
  refine ⟨by decide, by decide, by decide⟩

/-- Claim C13. Construction and read access round-trip: for every tag `D` and value `x`,
`Value` of the quantity constructed from `x` is `x`; the call leaves the quantity as it was,
and a second `Value` call on it returns `x` again. -/
theorem Value_roundtrip {T : Type} (D : TypeArg) (x : T) :
    (Quantity.mk x : Quantity T D).Value = x ∧
    (Quantity.mk x : Quantity T D).callValue = (x, Quantity.mk x) ∧
    ((Quantity.mk x : Quantity T D).callValue.2).callValue.1 = x :=
  ⟨rfl, rfl, rfl⟩

/-! ## New-handler support -/

/-- Claim C14, as amended. `NewHandlerSupport<T>::operator new` holds the previous global
new-handler and restores it on exit: for every global handler `g` and class handler `h` in
effect before the call, the global allocation is run with the global handler set to `h`
(and the class handler `h`); and when the call ends, whether that allocation returned or
threw `std::bad_alloc` and whichever global handler it left installed, the global handler is
`g` again.  The class handler is the one the allocation left: it is still `h` whenever the
allocation, that is the handler it calls, does not assign it through `SetNewHandler`. -/
theorem operatorNew_restores_global_handler
    (globalNew : Nat → Handlers → Allocation × Handlers) (size : Nat)
    (g h : new_handler) :
    set_new_handler h { global_handler := g, current_handler_ := h }
      = (g, { global_handler := h, current_handler_ := h }) ∧
    NewHandlerSupport.operatorNew globalNew size { global_handler := g, current_handler_ := h }
      = ((globalNew size { global_handler := h, current_handler_ := h }).1,
         { global_handler := g,
           current_handler_ :=
             (globalNew size { global_handler := h, current_handler_ := h }).2.current_handler_ }) ∧
    (∀ p, (globalNew size { global_handler := h, current_handler_ := h }).1 = .returned p →
      (NewHandlerSupport.operatorNew globalNew size
          { global_handler := g, current_handler_ := h }).1 = .returned p ∧
      (NewHandlerSupport.operatorNew globalNew size
          { global_handler := g, current_handler_ := h }).2.global_handler = g) ∧
    ((globalNew size { global_handler := h, current_handler_ := h }).1 = .bad_alloc →
      (NewHandlerSupport.operatorNew globalNew size
          { global_handler := g, current_handler_ := h }).1 = .bad_alloc ∧
      (NewHandlerSupport.operatorNew globalNew size
          { global_handler := g, current_handler_ := h }).2.global_handler = g) ∧
    ((globalNew size { global_handler := h, current_handler_ := h }).2.current_handler_ = h →
      NewHandlerSupport.operatorNew globalNew size { global_handler := g, current_handler_ := h }
        = ((globalNew size { global_handler := h, current_handler_ := h }).1,
           { global_handler := g, current_handler_ := h })) := by
  have key : NewHandlerSupport.operatorNew globalNew size
      { global_handler := g, current_handler_ := h }
      = ((globalNew size { global_handler := h, current_handler_ := h }).1,
         { global_handler := g,
           current_handler_ :=
             (globalNew size { global_handler := h, current_handler_ := h }).2.current_handler_ }) :=
    rfl
  refine ⟨rfl, key, ?_, ?_, ?_⟩
  · intro p hp
    rw [key]
    exact ⟨hp, rfl⟩
  · intro hp
    rw [key]
    exact ⟨hp, rfl⟩
  · intro hf
    rw [key, hf]

/-- Witness for C14: an allocation that calls handler `7`, which installs the global handler
`9` through `std::set_new_handler` and throws `std::bad_alloc`; after the call the global
handler is the previous one, `3`, and the class handler is still `7`. -/
theorem operatorNew_restores_global_handler_witness :
    NewHandlerSupport.operatorNew
        (fun _ s => (.bad_alloc, (set_new_handler (some 9) s).2)) 16
        { global_handler := some 3, current_handler_ := some 7 }
      = (.bad_alloc, { global_handler := some 3, current_handler_ := some 7 }) :=
  (operatorNew_restores_global_handler
    (fun _ s => (.bad_alloc, (set_new_handler (some 9) s).2)) 16
    (some 3) (some 7)).2.2.2.2 rfl

/-- Counterexample to C14 as stated: an allocation that calls handler `7`, which calls
`SetNewHandler` with handler `9` and throws `std::bad_alloc`; after the call the global
handler is `3` again, but the class handler is `9` and no longer `7`. -/
theorem operatorNew_class_handler_changed :
    NewHandlerSupport.operatorNew
        (fun _ s => (.bad_alloc, (NewHandlerSupport.SetNewHandler (some 9) s).2)) 16
        { global_handler := some 3, current_handler_ := some 7 }
      = (.bad_alloc, { global_handler := some 3, current_handler_ := some 9 }) ∧
    (NewHandlerSupport.operatorNew
        (fun _ s => (.bad_alloc, (NewHandlerSupport.SetNewHandler (some 9) s).2)) 16
        { global_handler := some 3, current_handler_ := some 7 }).2.current_handler_
      ≠ some 7 := by
  refine ⟨rfl, by decide⟩

/-- Claim C15. `NewHandlerSupport<T>::SetNewHandler(h)` swaps the class handler: it returns
the class handler current before the call (`nullptr` when none was ever set), afterwards the
class handler is `h`, and the global new-handler is unchanged; so of two calls
`SetNewHandler(h1)`, `SetNewHandler(h2)` in sequence the second returns `h1`. -/
theorem SetNewHandler_swaps (h h1 h2 : new_handler) (s : Handlers) :
    (NewHandlerSupport.SetNewHandler h s).1 = s.current_handler_ ∧
    (NewHandlerSupport.SetNewHandler h s).2.current_handler_ = h ∧
    (NewHandlerSupport.SetNewHandler h s).2.global_handler = s.global_handler ∧
    (NewHandlerSupport.SetNewHandler h (NewHandlerSupport.start s.global_handler)).1 = none ∧
    (NewHandlerSupport.SetNewHandler h2 (NewHandlerSupport.SetNewHandler h1 s).2).1 = h1 ∧
    (NewHandlerSupport.SetNewHandler h2 (NewHandlerSupport.SetNewHandler h1 s).2).2
      = { global_handler := s.global_handler, current_handler_ := h2 } :=
  ⟨rfl, rfl, rfl, rfl, rfl, rfl⟩

/-! ## Inverses and the dimensionless vector -/

theorem wrap_wrap_sub (V : ValueType) (m c : Int) :
    V.wrap (V.wrap m - c) = V.wrap (m - c) := by
  rw [sub_eq_add_neg, wrap_wrap_add, ← sub_eq_add_neg]

theorem zipWith_add_sub_cancel :
    ∀ a b : List Int, a.length = b.length →
      List.zipWith (· - ·) (List.zipWith (· + ·) a b) b = a
  | [], [], _ => rfl
  | [], _ :: _, hlen => by simp at hlen
  | _ :: _, [], hlen => by simp at hlen
  | x :: a, y :: b, hlen => by
    simp [zipWith_add_sub_cancel a b (by simpa using hlen)]

theorem zipWith_sub_add_cancel :
    ∀ a b : List Int, a.length = b.length →
      List.zipWith (· + ·) (List.zipWith (· - ·) a b) b = a
  | [], [], _ => rfl
  | [], _ :: _, hlen => by simp at hlen
  | _ :: _, [], hlen => by simp at hlen
  | x :: a, y :: b, hlen => by
    simp [zipWith_sub_add_cancel a b (by simpa using hlen)]

theorem packExpansion_plus_minus_cancel (V : ValueType) :
    ∀ a b ab r : List Int, (∀ m ∈ a, V.representable m) →
      packExpansion .DimensionPlus V a b = some ab →
      packExpansion .DimensionMinus V ab b = some r → r = a
  | [], [], ab, r, _, h1, h2 => by
    simp [packExpansion] at h1
    subst h1
    simp [packExpansion] at h2
    exact h2
  | [], _ :: _, _, _, _, h1, _ => by simp [packExpansion] at h1
  | _ :: _, [], _, _, _, h1, _ => by simp [packExpansion] at h1
  | x :: a, y :: b, ab, r, hwf, h1, h2 => by
    obtain ⟨v1, vs1, hv1, hvs1, rfl⟩ := (packExpansion_cons_eq_some _ V x y a b ab).1 h1
    obtain ⟨v2, vs2, hv2, hvs2, rfl⟩ := (packExpansion_cons_eq_some _ V v1 y vs1 b r).1 h2
    have htail := packExpansion_plus_minus_cancel V a b vs1 vs2
      (fun m hm => hwf m (by simp [hm])) hvs1 hvs2
    have e1 := constant_eq_wrap V _ _ hv1
    have e2 := constant_eq_wrap V _ _ hv2
    have hhead : v2 = x := by
      rw [e2, e1, wrap_wrap_sub, add_sub_cancel_right]
      exact wrap_of_representable V x (hwf x (by simp))
    rw [hhead, htail]

theorem packExpansion_minus_plus_cancel (V : ValueType) :
    ∀ a b ab r : List Int, (∀ m ∈ a, V.representable m) →
      packExpansion .DimensionMinus V a b = some ab →
      packExpansion .DimensionPlus V ab b = some r → r = a
  | [], [], ab, r, _, h1, h2 => by
    simp [packExpansion] at h1
    subst h1
    simp [packExpansion] at h2
    exact h2
  | [], _ :: _, _, _, _, h1, _ => by simp [packExpansion] at h1
  | _ :: _, [], _, _, _, h1, _ => by simp [packExpansion] at h1
  | x :: a, y :: b, ab, r, hwf, h1, h2 => by
    obtain ⟨v1, vs1, hv1, hvs1, rfl⟩ := (packExpansion_cons_eq_some _ V x y a b ab).1 h1
    obtain ⟨v2, vs2, hv2, hvs2, rfl⟩ := (packExpansion_cons_eq_some _ V v1 y vs1 b r).1 h2
    have htail := packExpansion_minus_plus_cancel V a b vs1 vs2
      (fun m hm => hwf m (by simp [hm])) hvs1 hvs2
    have e1 := constant_eq_wrap V _ _ hv1
    have e2 := constant_eq_wrap V _ _ hv2
    have hhead : v2 = x := by
      rw [e2, e1, wrap_wrap_add, sub_add_cancel]
      exact wrap_of_representable V x (hwf x (by simp))
    rw [hhead, htail]

theorem DimensionTransform_then_cancel (f g : MetaFunc) (V : ValueType) (a : List Int)
    (B R : TypeArg)
    (hpack : ∀ b ab r : List Int, packExpansion f V a b = some ab →
      packExpansion g V ab b = some r → r = a)
    (h : (DimensionTransform (DimensionVector V a) B f).bind
        (fun AB => DimensionTransform AB B g) = some R) :
    R = DimensionVector V a := by
  obtain ⟨AB, hAB, hR⟩ := Option.bind_eq_some.1 h
  obtain ⟨_, tB, V1, a1, b, ab, e1, rfl, hab, rfl⟩ :=
    (DimensionTransform_eq_some_iff _ _ _ _).1 hAB
  simp only [DimensionVector, TypeArg.inst.injEq] at e1
  obtain ⟨-, rfl, rfl⟩ := e1
  obtain ⟨_, _, V2, ab2, b2, r, e2, e3, hr, rfl⟩ :=
    (DimensionTransform_eq_some_iff _ _ _ _).1 hR
  simp only [DimensionVector, TypeArg.inst.injEq] at e2 e3
  obtain ⟨-, rfl, rfl⟩ := e2
  obtain ⟨-, -, rfl⟩ := e3
  rw [hpack b ab r hab hr]

/-- Claim C16, as amended. On dimensions `DimensionMinus` undoes `DimensionPlus` and
`DimensionPlus` undoes `DimensionMinus` wherever the derivations exist: for a dimension
vector `A` and a tag `B`, whenever the `DimensionMinus` derivation of (the `DimensionPlus`
derivation of `(A, B)`, `B`) exists it is `A`, and likewise with the two exchanged; and for
dimension vectors `A`, `B` over one exponent type with equally many exponents whose
elementwise sums (respectively differences) are all representable in that type, the
derivation exists and is `A`. -/
theorem DimensionTransform_plus_minus_inverse (V : ValueType) (Args : List Int)
    (hA : (DimensionVector V Args).WellFormed) :
    (∀ B R : TypeArg,
      (DimensionTransform (DimensionVector V Args) B .DimensionPlus).bind
          (fun AB => DimensionTransform AB B .DimensionMinus) = some R →
      R = DimensionVector V Args) ∧
    (∀ B R : TypeArg,
      (DimensionTransform (DimensionVector V Args) B .DimensionMinus).bind
          (fun AB => DimensionTransform AB B .DimensionPlus) = some R →
      R = DimensionVector V Args) ∧
    (∀ Args2 : List Int, Args.length = Args2.length →
      (∀ m ∈ List.zipWith (· + ·) Args Args2, V.representable m) →
      (DimensionTransform (DimensionVector V Args) (DimensionVector V Args2)
          .DimensionPlus).bind
          (fun AB => DimensionTransform AB (DimensionVector V Args2) .DimensionMinus)
        = some (DimensionVector V Args)) ∧
    (∀ Args2 : List Int, Args.length = Args2.length →
      (∀ m ∈ List.zipWith (· - ·) Args Args2, V.representable m) →
      (DimensionTransform (DimensionVector V Args) (DimensionVector V Args2)
          .DimensionMinus).bind
          (fun AB => DimensionTransform AB (DimensionVector V Args2) .DimensionPlus)
        = some (DimensionVector V Args)) := by
  have hwf : ∀ m ∈ Args, V.representable m := hA
  refine ⟨?_, ?_, ?_, ?_⟩
  · intro B R h
    exact DimensionTransform_then_cancel _ _ V Args B R
      (fun b ab r => packExpansion_plus_minus_cancel V Args b ab r hwf) h
  · intro B R h
    exact DimensionTransform_then_cancel _ _ V Args B R
      (fun b ab r => packExpansion_minus_plus_cancel V Args b ab r hwf) h
  · intro Args2 hlen hrep
    rw [DimensionTransform_plus_of_representable V Args Args2 hlen hrep]
    have hlen2 : (List.zipWith (· + ·) Args Args2).length = Args2.length := by
      simp [List.length_zipWith, hlen]
    have hc := zipWith_add_sub_cancel Args Args2 hlen
    have := DimensionTransform_minus_of_representable V _ Args2 hlen2
      (by rw [hc]; exact hwf)
    rw [hc] at this
    exact this
  · intro Args2 hlen hrep
    rw [DimensionTransform_minus_of_representable V Args Args2 hlen hrep]
    have hlen2 : (List.zipWith (· - ·) Args Args2).length = Args2.length := by
      simp [List.length_zipWith, hlen]
    have hc := zipWith_sub_add_cancel Args Args2 hlen
    have := DimensionTransform_plus_of_representable V _ Args2 hlen2
      (by rw [hc]; exact hwf)
    rw [hc] at this
    exact this

/-- Witness for C16: with `A = length` and `B = time`, both `(A*B)/B` and `(A/B)*B` have
the dimension of `A`. -/
theorem DimensionTransform_plus_minus_inverse_witness :
    (DimensionTransform length time .DimensionPlus).bind
        (fun AB => DimensionTransform AB time .DimensionMinus) = some length ∧
    (DimensionTransform length time .DimensionMinus).bind
        (fun AB => DimensionTransform AB time .DimensionPlus) = some length :=
  ⟨(DimensionTransform_plus_minus_inverse .int [0, 1, 0, 0, 0, 0, 0] (by decide)).2.2.1
      [0, 0, 1, 0, 0, 0, 0] rfl (by decide),
   (DimensionTransform_plus_minus_inverse .int [0, 1, 0, 0, 0, 0, 0] (by decide)).2.2.2
      [0, 0, 1, 0, 0, 0, 0] rfl (by decide)⟩

/-- Counterexample to C16 as stated: with `A = (2147483647,0,0,0,0,0,0)` and `B = mass`
the derivation of `A*B` overflows, so `(A*B)/B` has no dimension vector; and with
`A = (-2147483648,0,0,0,0,0,0)` and `B = mass` the derivation of `A/B` overflows, so
`(A/B)*B` has none. -/
theorem DimensionTransform_plus_minus_not_inverse :
    (DimensionVector .int [2147483647, 0, 0, 0, 0, 0, 0]).WellFormed ∧
    (DimensionTransform (DimensionVector .int [2147483647, 0, 0, 0, 0, 0, 0]) mass
        .DimensionPlus).bind
        (fun AB => DimensionTransform AB mass .DimensionMinus) = none ∧
    (DimensionVector .int [-2147483648, 0, 0, 0, 0, 0, 0]).WellFormed ∧
    (DimensionTransform (DimensionVector .int [-2147483648, 0, 0, 0, 0, 0, 0]) mass
        .DimensionMinus).bind
        (fun AB => DimensionTransform AB mass .DimensionPlus) = none := by
  refine ⟨by decide, by decide, by decide, by decide⟩

theorem representable_zero (V : ValueType) : V.representable 0 := by
  cases V <;> decide

theorem zipWith_add_replicate_zero :
    ∀ a : List Int, List.zipWith (· + ·) a (List.replicate a.length 0) = a
  | [] => rfl
  | x :: a => by simp [List.replicate_succ, zipWith_add_replicate_zero a]

theorem zipWith_replicate_zero_add :
    ∀ a : List Int, List.zipWith (· + ·) (List.replicate a.length 0) a = a
  | [] => rfl
  | x :: a => by simp [List.replicate_succ, zipWith_replicate_zero_add a]

theorem zipWith_sub_replicate_zero :
    ∀ a : List Int, List.zipWith (· - ·) a (List.replicate a.length 0) = a
  | [] => rfl
  | x :: a => by simp [List.replicate_succ, zipWith_sub_replicate_zero a]

theorem zipWith_sub_self :
    ∀ a : List Int, List.zipWith (· - ·) a a = List.replicate a.length 0
  | [] => rfl
  | x :: a => by simp [List.replicate_succ, zipWith_sub_self a]

/-- Claim C17. The all-zero vector `Z` (as many zero exponents as `D` has, seven for the
header's vectors) is the identity of the derivation, and every vector is its own inverse
under `DimensionMinus`: for every dimension vector `D`, the `DimensionPlus` derivation of
`(D, Z)` and of `(Z, D)` is `D`, the `DimensionMinus` derivation of `(D, Z)` is `D`, and the
`DimensionMinus` derivation of `(D, D)` is `Z`. -/
theorem DimensionTransform_zero_identity (V : ValueType) (Args : List Int)
    (hD : (DimensionVector V Args).WellFormed) :
    DimensionTransform (DimensionVector V Args)
        (DimensionVector V (List.replicate Args.length 0)) .DimensionPlus
      = some (DimensionVector V Args) ∧
    DimensionTransform (DimensionVector V (List.replicate Args.length 0))
        (DimensionVector V Args) .DimensionPlus
      = some (DimensionVector V Args) ∧
    DimensionTransform (DimensionVector V Args)
        (DimensionVector V (List.replicate Args.length 0)) .DimensionMinus
      = some (DimensionVector V Args) ∧
    DimensionTransform (DimensionVector V Args) (DimensionVector V Args) .DimensionMinus
      = some (DimensionVector V (List.replicate Args.length 0)) := by
  have hwf : ∀ m ∈ Args, V.representable m := hD
  refine ⟨?_, ?_, ?_, ?_⟩
  · have h := DimensionTransform_plus_of_representable V Args
      (List.replicate Args.length 0) (by simp)
      (by rw [zipWith_add_replicate_zero]; exact hwf)
    rw [zipWith_add_replicate_zero] at h
    exact h
  · have h := DimensionTransform_plus_of_representable V
      (List.replicate Args.length 0) Args (by simp)
      (by rw [zipWith_replicate_zero_add]; exact hwf)
    rw [zipWith_replicate_zero_add] at h
    exact h
  · have h := DimensionTransform_minus_of_representable V Args
      (List.replicate Args.length 0) (by simp)
      (by rw [zipWith_sub_replicate_zero]; exact hwf)
    rw [zipWith_sub_replicate_zero] at h
    exact h
  · have h := DimensionTransform_minus_of_representable V Args Args rfl
      (by
        rw [zipWith_sub_self]
        intro m hm
        rw [List.eq_of_mem_replicate hm]
        exact representable_zero V)
    rw [zipWith_sub_self] at h
    exact h

/-- Witness for C17 at `D = (1,2,-2,0,0,0,0)` with `Z = (0,0,0,0,0,0,0)`. -/
theorem DimensionTransform_zero_identity_witness :
    DimensionTransform (DimensionVector .int [1, 2, -2, 0, 0, 0, 0])
        (DimensionVector .int [0, 0, 0, 0, 0, 0, 0]) .DimensionPlus
      = some (DimensionVector .int [1, 2, -2, 0, 0, 0, 0]) ∧
    DimensionTransform (DimensionVector .int [0, 0, 0, 0, 0, 0, 0])
        (DimensionVector .int [1, 2, -2, 0, 0, 0, 0]) .DimensionPlus
      = some (DimensionVector .int [1, 2, -2, 0, 0, 0, 0]) ∧
    DimensionTransform (DimensionVector .int [1, 2, -2, 0, 0, 0, 0])
        (DimensionVector .int [0, 0, 0, 0, 0, 0, 0]) .DimensionMinus
      = some (DimensionVector .int [1, 2, -2, 0, 0, 0, 0]) ∧
    DimensionTransform (DimensionVector .int [1, 2, -2, 0, 0, 0, 0])
        (DimensionVector .int [1, 2, -2, 0, 0, 0, 0]) .DimensionMinus
      = some (DimensionVector .int [0, 0, 0, 0, 0, 0, 0]) :=
  DimensionTransform_zero_identity .int [1, 2, -2, 0, 0, 0, 0] (by decide)

end jz
